import Mathlib

/-!
Verification of the measurement-extraction pipeline of `src/api/index.py` (isir_api),
shallowly embedded in Lean.

Modelling conventions:
* Word coordinates are modelled as integers; the source applies Python `round` to the
  vertical coordinate before grouping, which on integral coordinates is the identity.
* Regex character classes `\d` and `str.isdigit` are modelled over ASCII digits; the
  literal Unicode character classes of the source are embedded verbatim by codepoint.
* Python `float(text)` is modelled as exact decimal parsing into a numerator/denominator
  pair (sign, optional fraction, optional exponent); the `inf`/`nan`/underscore forms
  accepted by `float` are omitted — they cannot satisfy the range check `0 < v < 1000`
  that is the only use of `float` here, except for underscore forms, which do not occur
  in the inputs considered.
* `werkzeug.secure_filename` is an external collaborator and is kept abstract: batch
  processing is parametrised by a filename-sanitising function `sf`.
* PDF decoding (PyMuPDF) is external: a decoded document is a list of pages, each page
  carrying its positioned word tokens and its linearised text; a file whose bytes do not
  decode is represented with `content = none`.
* `extract_header_data` performs a fixed set of regex key/value lookups on the first
  page's text; none of the measurement-pipeline properties concern its output, so the
  header block is modelled as carrying the raw first-page text.
* The `processed_at` timestamps of the HTTP layer are wall-clock effects and are omitted.
-/

namespace IsirApi

/-! ### Character data of the source's regular expressions -/

/-- The first bracketed character class of `measurement_char_pattern` (line 83 of the
source), listed by codepoint, duplicates removed. -/
def symClass1 : List Char :=
  ['0', '4', 'K', 'P', 'p', '£', '§', '©',
   '¬', '®', '°', '±', 'µ', '¶', 'Ђ', 'Ѓ',
   'Є', 'І', 'Ї', 'Ј', 'Љ', 'Њ', 'Ў', 'А',
   'Б', 'В', 'Г', 'Д', 'Е', 'Ж', 'З', 'И',
   'Й', 'К', 'Л', 'М', 'Н', 'О', 'П', 'Р',
   'С', 'Т', 'У', 'Ф', 'Х', 'Ц', 'Ч', 'Ш',
   'Щ', 'Ъ', 'Ы', 'Ь', 'Э', 'Ю', 'Я', 'а',
   'в', 'ђ', 'ѓ', 'є', 'ѕ', 'і', 'ї', 'љ',
   'њ', 'ќ', 'Ґ', 'ґ', '†', '•', '™', '√',
   '∞', '≠', '≤', '≥']

/-- The second bracketed character class of `measurement_char_pattern`, by codepoint. -/
def symClass2 : List Char :=
  ['§', '®', '¶', 'ƒ', 'Ѓ', 'Є', 'А', 'Б',
   'В', 'Г', 'Д', 'Е', 'Ж', 'З', 'И', 'К',
   'М', 'О', 'Р', 'Т', 'Ф', 'Ц', 'Ш', 'Ъ',
   'Ь', 'Ю', 'ђ', 'є', 'і', 'ї', 'љ', 'њ',
   'Ґ', 'ґ', '†', '™', '∞', '≈', '≤']

/-- The character class of the first `symbol_patterns` entry inside
`parse_single_measurement` (line 193 of the source), by codepoint. -/
def symGlyphs : List Char :=
  ['¶', 'Є', 'Е', 'Ж', 'И', 'К', 'Л', 'Х',
   'Ц', 'Ч', 'Ш', 'Щ', 'в', 'ѓ', 'ѕ', 'ќ',
   '√']

/-! ### Basic string helpers (Python semantics on ASCII data) -/

/-- Python `int` on a string of decimal digits. -/
def natFromDigits (cs : List Char) : Nat :=
  cs.foldl (fun a c => a * 10 + (c.toNat - 48)) 0

/-- Python `str.isdigit` (ASCII digits). -/
def pyIsDigitStr (s : String) : Bool :=
  !s.data.isEmpty && s.data.all Char.isDigit

/-- Python `\s` whitespace characters. -/
def isPySpace (c : Char) : Bool :=
  c == ' ' || c == '\t' || c == '\n' || c == '\r' || c == '\x0B' || c == '\x0C'

/-- Python `str.split('\n')`: split at every newline, keeping empty pieces. -/
def splitLinesAux (cur : List Char) : List Char → List (List Char)
  | [] => [cur.reverse]
  | c :: cs => if c == '\n' then cur.reverse :: splitLinesAux [] cs else splitLinesAux (c :: cur) cs

def splitLines (cs : List Char) : List (List Char) :=
  splitLinesAux [] cs

/-- Python `str.split()`: split at runs of whitespace, dropping empty pieces. -/
def pySplitAux (cur : List Char) : List Char → List String
  | [] => if cur.isEmpty then [] else [String.mk cur.reverse]
  | c :: cs =>
    if isPySpace c then
      if cur.isEmpty then pySplitAux [] cs else String.mk cur.reverse :: pySplitAux [] cs
    else pySplitAux (c :: cur) cs

def pySplit (cs : List Char) : List String :=
  pySplitAux [] cs

/-- Python `str.strip()`. -/
def pyStrip (cs : List Char) : List Char :=
  ((cs.dropWhile isPySpace).reverse.dropWhile isPySpace).reverse

/-! ### Data model -/

/-- One positioned text token of a page, as yielded by `page.get_text("words")`:
`w[0]` is the left x-coordinate, `w[1]` the top y-coordinate, `w[4]` the text.
The remaining bounding-box entries of the tuple are never read by the pipeline. -/
structure Word where
  x : Int
  y : Int
  text : String
deriving DecidableEq

/-- A decoded PDF page: its positioned word tokens and its linearised text. -/
structure Page where
  words : List Word
  text : String
deriving DecidableEq

/-- One measurement record, with the nine fields built by both extraction paths. -/
structure Meas where
  no : String
  sym : String
  dimension : String
  upper : String
  lower : String
  pos : String
  measured_by_vendor : String
  measured_by_denso : String
  assessment : String
deriving DecidableEq

/-- Header block of a document. `extract_header_data` performs fixed regex key/value
lookups on the first page's text; no measurement-pipeline property concerns its
output, so it is modelled as carrying the raw first-page text it was given. -/
structure HeaderInfo where
  raw : String
deriving DecidableEq

def extract_header_data (page_text : String) : HeaderInfo :=
  { raw := page_text }

/-- Result of `process_pdf_data` for one document. -/
structure DocResult where
  cavity_id : String
  header_info : HeaderInfo
  measurements : List Meas
deriving DecidableEq

/-! ### Token classification (the source's regular expressions) -/

/-- Alternative `\d{1,3}(?:\.\d+)?` of `measurement_char_pattern`, full match. -/
def matchNum13 (cs : List Char) : Bool :=
  let ds := cs.takeWhile Char.isDigit
  decide (1 ≤ ds.length) && decide (ds.length ≤ 3) &&
    (match cs.drop ds.length with
     | [] => true
     | '.' :: rest => !rest.isEmpty && rest.all Char.isDigit
     | _ => false)

/-- Alternative `[A-Za-z]{1,3}` of `measurement_char_pattern`, full match. -/
def isAlphaTok13 (cs : List Char) : Bool :=
  decide (1 ≤ cs.length) && decide (cs.length ≤ 3) && cs.all Char.isAlpha

/-- `measurement_char_pattern.match(token)`: the token filter of the coordinate path. -/
def measurementRelevant (s : String) : Bool :=
  matchNum13 s.data || isAlphaTok13 s.data ||
    (match s.data with
     | [c] => symClass1.contains c || symClass2.contains c
     | _ => false)

/-- `^\d+\.?\d*$` — the numeric-token test used for the `sym` check in the
coordinate path. -/
def coordNumTok (s : String) : Bool :=
  let cs := s.data
  let ds := cs.takeWhile Char.isDigit
  !ds.isEmpty &&
    (match cs.drop ds.length with
     | [] => true
     | '.' :: rest => rest.all Char.isDigit
     | _ => false)

/-- `is_number`: `^\d+(\.\d+)?$`. -/
def is_number (s : String) : Bool :=
  let cs := s.data
  let ds := cs.takeWhile Char.isDigit
  !ds.isEmpty &&
    (match cs.drop ds.length with
     | [] => true
     | '.' :: rest => !rest.isEmpty && rest.all Char.isDigit
     | _ => false)

/-- `is_symbol`: first char in the glyph class, or 1–4 letters, or `BURR`,
and not a number. (Only the first character matters in the glyph alternative,
whose regex is unanchored at the end.) -/
def is_symbol (s : String) : Bool :=
  ((match s.data with
    | c :: _ => symGlyphs.contains c
    | [] => false) ||
   (decide (1 ≤ s.data.length) && decide (s.data.length ≤ 4) && s.data.all Char.isAlpha) ||
   s == "BURR") && !is_number s

def stripSign (cs : List Char) : List Char :=
  match cs with
  | c :: rest => if c == '+' || c == '-' then rest else cs
  | [] => []

/-- `is_tolerance`: `^[+\-]?\d*\.?\d+$` (the second pattern of the source is
subsumed by the first). -/
def is_tolerance (s : String) : Bool :=
  let cs := stripSign s.data
  let ds := cs.takeWhile Char.isDigit
  match cs.drop ds.length with
  | [] => !ds.isEmpty
  | '.' :: rest => !rest.isEmpty && rest.all Char.isDigit
  | _ => false

/-- Python `float(text)` as an exact (numerator, positive denominator) pair:
optional sign, integer digits, optional `.fraction`, optional exponent. -/
def pyFloatParts (s : String) : Option (Int × Nat) :=
  let cs := s.data
  let signPart : Bool × List Char :=
    match cs with
    | c :: rest => if c == '-' then (true, rest) else if c == '+' then (false, rest) else (false, cs)
    | [] => (false, [])
  let neg := signPart.1
  let cs1 := signPart.2
  let ip := cs1.takeWhile Char.isDigit
  let cs2 := cs1.drop ip.length
  let fracPart : List Char × List Char × Bool :=
    match cs2 with
    | '.' :: rest =>
      let f := rest.takeWhile Char.isDigit
      (f, rest.drop f.length, !ip.isEmpty || !f.isEmpty)
    | _ => ([], cs2, !ip.isEmpty)
  let fp := fracPart.1
  let cs3 := fracPart.2.1
  let okMant := fracPart.2.2
  let expPart : Bool × Int :=
    match cs3 with
    | [] => (true, 0)
    | e :: rest =>
      if e == 'e' || e == 'E' then
        let signedRest : Bool × List Char :=
          match rest with
          | c :: r2 => if c == '-' then (true, r2) else if c == '+' then (false, r2) else (false, rest)
          | [] => (false, [])
        let eds := signedRest.2.takeWhile Char.isDigit
        if eds.isEmpty || !(signedRest.2.drop eds.length).isEmpty then (false, 0)
        else (true, if signedRest.1 then -(natFromDigits eds : Int) else (natFromDigits eds : Int))
      else (false, 0)
  if okMant && expPart.1 then
    let mant := natFromDigits (ip ++ fp)
    let sNum : Int := if neg then -(mant : Int) else (mant : Int)
    if 0 ≤ expPart.2 then
      some (sNum * ((10 : Int) ^ expPart.2.toNat), (10 : Nat) ^ fp.length)
    else
      some (sNum, (10 : Nat) ^ fp.length * (10 : Nat) ^ (-expPart.2).toNat)
  else none

/-- `is_measurement_value`: parses as a float and lies strictly between 0 and 1000. -/
def is_measurement_value (s : String) : Bool :=
  match pyFloatParts s with
  | some (n, d) => decide (0 < n) && decide (n < 1000 * (d : Int))
  | none => false

/-! ### The plain-text fallback parser (`parse_measurement_row`, `parse_single_measurement`) -/

/-- One optional-field step of `parse_single_measurement`: consume the head token
when it satisfies the predicate, otherwise assign the empty string. -/
def fieldStep (p : String → Bool) : List String → String × List String
  | [] => ("", [])
  | t :: ts => if p t then (t, ts) else ("", t :: ts)

/-- `parse_single_measurement`: `None` on fewer than two tokens, otherwise a record
whose fields are filled left to right by the classification predicates, defaulting
to the empty string. -/
def parse_single_measurement (row_texts : List String) : Option Meas :=
  match row_texts with
  | r0 :: r1 :: rest =>
    let remaining := r1 :: rest
    let step1 := fieldStep (fun t => is_symbol t && !is_number t) remaining
    let step2 := fieldStep is_number step1.2
    let step3 := fieldStep is_tolerance step2.2
    let step4 := fieldStep is_tolerance step3.2
    let step5 := fieldStep (fun t => !is_number t && !is_measurement_value t) step4.2
    let step6 := fieldStep is_measurement_value step5.2
    let step7 := fieldStep is_measurement_value step6.2
    some { no := r0, sym := step1.1, dimension := step2.1, upper := step3.1,
           lower := step4.1, pos := step5.1, measured_by_vendor := step6.1,
           measured_by_denso := step7.1, assessment := step7.2.headD "" }
  | _ => none

/-- The row-number test of `parse_measurement_row`: `^\d{1,3}$` with value 1–200. -/
def isRowNo (s : String) : Bool :=
  let cs := s.data
  !cs.isEmpty && decide (cs.length ≤ 3) && cs.all Char.isDigit &&
    decide (1 ≤ natFromDigits cs) && decide (natFromDigits cs ≤ 200)

/-- Indices of tokens that look like row numbers. -/
def rowPositions (texts : List String) : List Nat :=
  (List.range texts.length).filter (fun i => isRowNo (texts.getD i ""))

/-- `texts[pos:end]` slices between consecutive row positions; the last slice runs
to the end of the token list. -/
def rowSlices (texts : List String) : List Nat → List (List String)
  | [] => []
  | [p] => [texts.drop p]
  | p :: q :: rest => (texts.drop p).take (q - p) :: rowSlices texts (q :: rest)

/-- `parse_measurement_row`: split the token list at row-number positions and parse
each slice; slices too short to parse contribute nothing. -/
def parse_measurement_row (texts : List String) : List Meas :=
  (rowSlices texts (rowPositions texts)).filterMap parse_single_measurement

/-! ### The coordinate path (`extract_measurement_data_with_coords`) -/

/-- The optional-`sym` consumption of the coordinate path: the token after `no` is
taken as `sym` exactly when it fails the `^\d+\.?\d*$` numeric test. -/
def symSplit (entry_words : List String) : String × List String :=
  match entry_words with
  | [] => ("", [])
  | t :: ts => if coordNumTok t then ("", t :: ts) else (t, ts)

/-- Field assignment of the coordinate path: entries of fewer than 2 tokens are
skipped, and after consuming `no` and the optional `sym` a record is emitted only
when at least 5 tokens remain. -/
def assignEntry (entry : List String) : List Meas :=
  match entry with
  | no :: t1 :: rest =>
    let split := symSplit (t1 :: rest)
    let rest2 := split.2
    if 5 ≤ rest2.length then
      [{ no := no, sym := split.1,
         dimension := rest2.getD 0 "", upper := rest2.getD 1 "", lower := rest2.getD 2 "",
         pos := rest2.getD 3 "", measured_by_vendor := rest2.getD 4 "",
         measured_by_denso := rest2.getD 5 "", assessment := rest2.getD 6 "" }]
    else []
  | _ => []

/-- Row classification of the coordinate path: 12–14 relevant tokens are split at
the floor of half into two entries, 6–7 tokens form one entry, anything else none. -/
def classifyLine (text_line : List String) : List (List String) :=
  if 12 ≤ text_line.length ∧ text_line.length ≤ 14 then
    [text_line.take (text_line.length / 2), text_line.drop (text_line.length / 2)]
  else if 6 ≤ text_line.length ∧ text_line.length ≤ 7 then [text_line]
  else []

/-- Records contributed by one visual line's filtered token texts. -/
def lineRecords (text_line : List String) : List Meas :=
  ((classifyLine text_line).map assignEntry).flatten

def wordLE (a b : Word) : Prop := a.x ≤ b.x

instance : DecidableRel wordLE := fun a b => inferInstanceAs (Decidable (a.x ≤ b.x))

def intLE (a b : Int) : Prop := a ≤ b

instance : DecidableRel intLE := fun a b => inferInstanceAs (Decidable (a ≤ b))

/-- One grouped line: sort its words left to right (stably, as Python `sorted` by
key), keep the measurement-relevant token texts, and assign fields. -/
def lineOfWords (ws : List Word) : List Meas :=
  lineRecords (((List.insertionSort wordLE ws).map Word.text).filter measurementRelevant)

/-- Group a page's words into lines by (rounded) y-coordinate, lines ordered top to
bottom; within a bucket the original word order is preserved, as with
`defaultdict` appends. -/
def linesOf (words : List Word) : List (List Word) :=
  (List.insertionSort intLE (words.map Word.y).eraseDups).map
    (fun yv => words.filter (fun w => w.y == yv))

/-- `extract_measurement_data_with_coords`. -/
def extract_measurement_data_with_coords (page : Page) : List Meas :=
  ((linesOf page.words).map lineOfWords).flatten

/-! ### Per-page strategy chain (`extract_table_data_from_page`) -/

/-- `re.match(r'^\d+\s+', line.strip())`: the stripped line starts with digits
followed by whitespace. -/
def startsNumSpace (lineChars : List Char) : Bool :=
  let st := pyStrip lineChars
  let ds := st.takeWhile Char.isDigit
  !ds.isEmpty &&
    (match st.drop ds.length with
     | c :: _ => isPySpace c
     | [] => false)

/-- Try the coordinate method first; when it yields nothing, fall back to parsing
the page's linearised text line by line. -/
def extract_table_data_from_page (page : Page) : List Meas :=
  let measurements := extract_measurement_data_with_coords page
  if measurements.isEmpty then
    ((splitLines page.text.data).map (fun line =>
      if startsNumSpace line then parse_measurement_row (pySplit line) else [])).flatten
  else measurements

/-! ### Cavity id derivation (`extract_cavity_number_from_filename`) -/

/-- Characters after the last occurrence of `sep` (the whole list when absent). -/
def afterLast (sep : Char) (cs : List Char) : List Char :=
  (cs.reverse.takeWhile (fun c => c != sep)).reverse

/-- `os.path.splitext(b)[0]` for a basename `b`: cut at the last dot provided some
earlier character of the name is not a dot. -/
def dropExt (b : List Char) : List Char :=
  match b.reverse.findIdx? (fun c => c == '.') with
  | none => b
  | some k =>
    let d := b.length - 1 - k
    if (b.take d).any (fun c => c != '.') then b.take d else b

/-- Match `CAV-<digits>` (case-insensitive) at the head of the list, returning the
greedy digit run. -/
def cavHere : List Char → Option (List Char)
  | c :: a :: v :: h :: d :: rest =>
    if c.toLower == 'c' && a.toLower == 'a' && v.toLower == 'v' && h == '-' && d.isDigit then
      some (d :: rest.takeWhile Char.isDigit)
    else none
  | _ => none

/-- `re.search(r'CAV-(\d+)', filename, re.IGNORECASE)`: leftmost match wins. -/
def searchCav : List Char → Option (List Char)
  | [] => none
  | c :: cs =>
    match cavHere (c :: cs) with
    | some ds => some ds
    | none => searchCav cs

/-- `extract_cavity_number_from_filename`. -/
def extract_cavity_number_from_filename (filename : String) : String :=
  match searchCav filename.data with
  | some ds => "CAV-" ++ String.mk ds
  | none => String.mk (dropExt (afterLast '/' filename.data))

/-! ### Deduplication and sorting (`process_pdf_data`) -/

/-- The duplicate-detection key: `(no, dimension, measured_by_vendor)`. -/
def dedupKey (m : Meas) : String × String × String :=
  (m.no, m.dimension, m.measured_by_vendor)

/-- The `seen`-set loop of `process_pdf_data`: keep a record exactly when its key
has not been seen before. -/
def dedupGo (seen : List (String × String × String)) : List Meas → List Meas
  | [] => []
  | m :: ms =>
    if dedupKey m ∈ seen then dedupGo seen ms
    else m :: dedupGo (dedupKey m :: seen) ms

def dedupMeas (l : List Meas) : List Meas :=
  dedupGo [] l

/-- The sort key `int(x['no']) if x['no'].isdigit() else 0`. -/
def sortKey (m : Meas) : Nat :=
  if pyIsDigitStr m.no then natFromDigits m.no.data else 0

def measLE (a b : Meas) : Prop := sortKey a ≤ sortKey b

instance : DecidableRel measLE := fun a b => inferInstanceAs (Decidable (sortKey a ≤ sortKey b))

instance : IsTotal Meas measLE := ⟨fun a b => Nat.le_total (sortKey a) (sortKey b)⟩

instance : IsTrans Meas measLE := ⟨fun _ _ _ hab hbc => Nat.le_trans hab hbc⟩

/-- Python `list.sort(key=...)` is a stable sort by the key; a stable sort by a
total preorder is unique, so insertion sort models it exactly. -/
def sortMeas (l : List Meas) : List Meas :=
  List.insertionSort measLE l

/-- `process_pdf_data`: header from page 0, measurements accumulated from pages
1 onward, deduplicated, then sorted; an empty document raises (`doc[0]` fails). -/
def process_pdf_data (pages : List Page) (filename : String) : Except String DocResult :=
  match pages with
  | [] => Except.error "page 0 is not in document"
  | p0 :: rest =>
    let all_measurements := (rest.map extract_table_data_from_page).flatten
    Except.ok { cavity_id := extract_cavity_number_from_filename filename,
                header_info := extract_header_data p0.text,
                measurements := sortMeas (dedupMeas all_measurements) }

/-! ### The batch endpoint (`process_pdf`) -/

/-- `allowed_file`: the name contains a dot and its lowercased extension is `pdf`. -/
def allowed_file (filename : String) : Bool :=
  filename.data.contains '.' && (afterLast '.' filename.data).map Char.toLower == "pdf".data

/-- One uploaded file: its client-supplied name, byte size, and decoded page list
(`none` when the bytes do not decode as a PDF). -/
structure UploadedFile where
  filename : String
  size : Nat
  content : Option (List Page)
deriving DecidableEq

/-- One per-cavity entry of the response's `data` map. -/
structure FileEntry where
  filename : String
  header_info : HeaderInfo
  measurements : List Meas
deriving DecidableEq

/-- The success payload of the batch endpoint. -/
structure BatchOk where
  success : Bool
  files_processed : Nat
  total_files : Nat
  cavities_found : List String
  total_measurements : Nat
  data : List (String × FileEntry)
  warnings : List String
deriving DecidableEq

/-- A batch response: an error body with HTTP 400, or the success payload.
(`warnings` is attached only when non-empty in the JSON; it is carried always here.) -/
inductive BatchResponse where
  | err (message : String) (errors : List String)
  | ok (payload : BatchOk)
deriving DecidableEq

/-- Processing of one non-empty-named file inside the loop of `process_pdf`:
extension check, size check, decode, then `process_pdf_data`; every error message
is prefixed with the sanitised filename. -/
def perFile (sf : String → String) (f : UploadedFile) : Except String (String × FileEntry) :=
  let filename := sf f.filename
  if !allowed_file filename then Except.error (filename ++ ": Invalid file type")
  else if 10485760 < f.size then Except.error (filename ++ ": File too large (>10MB)")
  else
    match f.content with
    | none => Except.error (filename ++ ": Error opening PDF: cannot open broken document")
    | some pages =>
      match process_pdf_data pages filename with
      | Except.error e => Except.error (filename ++ (": " ++ e))
      | Except.ok dr =>
        Except.ok (dr.cavity_id,
          { filename := filename, header_info := dr.header_info, measurements := dr.measurements })

/-- Python dict assignment `all_data[cavity_id] = entry`: replace in place when the
key exists (keeping its position), otherwise append. -/
def dictInsert (d : List (String × FileEntry)) (k : String) (v : FileEntry) :
    List (String × FileEntry) :=
  if d.any (fun kv => kv.1 == k) then d.map (fun kv => if kv.1 == k then (k, v) else kv)
  else d ++ [(k, v)]

/-- Loop state of `process_pdf`: the `all_data` map, the success counter, and the
accumulated per-file error messages. -/
structure BatchState where
  data : List (String × FileEntry)
  successes : Nat
  errors : List String

/-- One iteration of the file loop: files with an empty name are skipped. -/
def batchStep (sf : String → String) (st : BatchState) (f : UploadedFile) : BatchState :=
  if f.filename == "" then st
  else
    match perFile sf f with
    | Except.error e => { st with errors := st.errors ++ [e] }
    | Except.ok (cid, entry) =>
      { st with data := dictInsert st.data cid entry, successes := st.successes + 1 }

/-- The `/api/process-pdf` handler body, past request parsing. -/
def process_pdf (sf : String → String) (files : List UploadedFile) : BatchResponse :=
  if files.isEmpty || files.all (fun f => f.filename == "") then
    BatchResponse.err "No files selected" []
  else
    let st := files.foldl (batchStep sf) ⟨[], 0, []⟩
    if st.successes == 0 then BatchResponse.err "No files were successfully processed" st.errors
    else
      BatchResponse.ok
        { success := true, files_processed := st.successes, total_files := files.length,
          cavities_found := st.data.map Prod.fst,
          total_measurements := (st.data.map (fun kv => kv.2.measurements.length)).sum,
          data := st.data, warnings := st.errors }

/-- Number of files of a batch that process successfully. -/
def successCount (sf : String → String) (files : List UploadedFile) : Nat :=
  (files.filter (fun f => !(f.filename == ""))).countP (fun f => (perFile sf f).isOk)

/-- The per-file error messages of a batch, in file order. -/
def perFileErrors (sf : String → String) (files : List UploadedFile) : List String :=
  (files.filter (fun f => !(f.filename == ""))).filterMap
    (fun f => match perFile sf f with | Except.error e => some e | Except.ok _ => none)

/-! ### Specification-side predicate for the cavity pattern -/

/-- The specification's description of cavity-id matching, independent of the
implementation's scanner: somewhere in the character list, `CAV-` occurs
case-insensitively, immediately followed by a digit. -/
inductive HasCavCI : List Char → Prop where
  | head (c a v d : Char) (rest : List Char) :
      c.toLower = 'c' → a.toLower = 'a' → v.toLower = 'v' → d.isDigit = true →
      HasCavCI (c :: a :: v :: '-' :: d :: rest)
  | tail (c : Char) (l : List Char) : HasCavCI l → HasCavCI (c :: l)

/-! ### Concrete documents used in the claim analyses -/

/-- The token row of the spec's single-record scenario, as positioned words. -/
def c1Words : List Word :=
  [⟨0, 100, "1"⟩, ⟨10, 100, "Ø"⟩, ⟨20, 100, "10"⟩, ⟨30, 100, "+0.012"⟩,
   ⟨40, 100, "-0.5"⟩, ⟨50, 100, "Bottom"⟩, ⟨60, 100, "9.89"⟩]

/-- A page carrying the scenario row both as words and as a text line. -/
def c1Page : Page :=
  ⟨c1Words, "1 Ø 10 +0.012 -0.5 Bottom 9.89"⟩

def c1HeaderPage : Page := ⟨[], "hdr"⟩

/-- A measurement page whose two text rows swap the `no` order. -/
def c2Page : Page := ⟨[], "2 10.5 +0.1 -0.1 A 9.89\n1 11.5 +0.2 -0.2 B 8.5"⟩

def c2Doc : List Page := [⟨[], "hdr"⟩, c2Page]

/-- The measurement list `process_pdf_data` produces for `c2Doc`. -/
def c2Expected : DocResult :=
  { cavity_id := "f", header_info := { raw := "hdr" },
    measurements :=
      [{ no := "1", sym := "", dimension := "11.5", upper := "+0.2", lower := "-0.2",
         pos := "B", measured_by_vendor := "8.5", measured_by_denso := "", assessment := "" },
       { no := "2", sym := "", dimension := "10.5", upper := "+0.1", lower := "-0.1",
         pos := "A", measured_by_vendor := "9.89", measured_by_denso := "", assessment := "" }] }

/-- Two text rows agreeing on `no` and `dimension` but not on the vendor value. -/
def c3Page : Page := ⟨[], "1 10.5 +0.1 -0.1 A 9.89\n1 10.5 +0.1 -0.1 A 9.99"⟩

def c3Doc : List Page := [⟨[], "hdr"⟩, c3Page]

def c3RecA : Meas :=
  { no := "1", sym := "", dimension := "10.5", upper := "+0.1", lower := "-0.1",
    pos := "A", measured_by_vendor := "9.89", measured_by_denso := "", assessment := "" }

def c3RecB : Meas :=
  { no := "1", sym := "", dimension := "10.5", upper := "+0.1", lower := "-0.1",
    pos := "A", measured_by_vendor := "9.99", measured_by_denso := "", assessment := "" }

def c3Expected : DocResult :=
  { cavity_id := "f", header_info := { raw := "hdr" }, measurements := [c3RecA, c3RecB] }

/-- An accumulated record list with a later duplicate of the first record's key. -/
def c4First : Meas :=
  { no := "3", sym := "", dimension := "7.5", upper := "+0.1", lower := "-0.1",
    pos := "Top", measured_by_vendor := "7.49", measured_by_denso := "", assessment := "" }

def c4Other : Meas :=
  { no := "4", sym := "R", dimension := "2", upper := "", lower := "",
    pos := "", measured_by_vendor := "2.01", measured_by_denso := "", assessment := "" }

/-- Same key as `c4First` but different `pos`: a later duplicate. -/
def c4Dup : Meas :=
  { no := "3", sym := "", dimension := "7.5", upper := "+0.1", lower := "-0.1",
    pos := "Bottom", measured_by_vendor := "7.49", measured_by_denso := "", assessment := "" }

def c4List : List Meas := [c4First, c4Other, c4Dup]

/-- Thirteen tokens on one visual line. -/
def c6Tokens : List String :=
  ["1", "A", "10", "+1", "-1", "B", "9", "2", "C", "11", "+3", "-4", "D"]

/-- Words whose leading token is alphabetic, with five numeric tokens after it. -/
def c7Page : Page :=
  ⟨[⟨0, 50, "AB"⟩, ⟨10, 50, "1"⟩, ⟨20, 50, "2"⟩, ⟨30, 50, "3"⟩, ⟨40, 50, "4"⟩, ⟨50, 50, "5"⟩], ""⟩

def c7Doc : List Page := [⟨[], "hdr"⟩, c7Page]

/-- The record the coordinate path emits for `c7Page`: its `no` is not numeric. -/
def c7BadRec : Meas :=
  { no := "AB", sym := "", dimension := "1", upper := "2", lower := "3",
    pos := "4", measured_by_vendor := "5", measured_by_denso := "", assessment := "" }

def c7Texts : List String := ["1", "10.5", "9.89"]

/-- The record `parse_measurement_row` emits for `c7Texts`. -/
def c7GoodRec : Meas :=
  { no := "1", sym := "", dimension := "10.5", upper := "9.89", lower := "",
    pos := "", measured_by_vendor := "", measured_by_denso := "", assessment := "" }

/-- A batch of three uploads whose second file is not a PDF. -/
def c9Page : Page := ⟨[], ""⟩

def c9Files : List UploadedFile :=
  [⟨"a.pdf", 0, some [c9Page]⟩, ⟨"b.txt", 0, some [c9Page]⟩, ⟨"c.pdf", 0, some [c9Page]⟩]

def c9EntryA : FileEntry :=
  { filename := "a.pdf", header_info := { raw := "" }, measurements := [] }

def c9EntryC : FileEntry :=
  { filename := "c.pdf", header_info := { raw := "" }, measurements := [] }

def c9Payload : BatchOk :=
  { success := true, files_processed := 2, total_files := 3,
    cavities_found := ["a", "c"], total_measurements := 0,
    data := [("a", c9EntryA), ("c", c9EntryC)],
    warnings := ["b.txt: Invalid file type"] }

/-- A single page that would yield a record if it were scanned for measurements. -/
def c10Page : Page :=
  ⟨[⟨0, 50, "1"⟩, ⟨10, 50, "2"⟩, ⟨20, 50, "3"⟩, ⟨30, 50, "4"⟩, ⟨40, 50, "5"⟩, ⟨50, 50, "6"⟩],
   "1 2 3 4 5 6"⟩

def c10Expected : DocResult :=
  { cavity_id := "f", header_info := { raw := "1 2 3 4 5 6" }, measurements := [] }

/-! ## Helper lemmas -/

deriving instance DecidableEq for Except

theorem process_pdf_data_cons (p0 : Page) (rest : List Page) (fn : String) :
    process_pdf_data (p0 :: rest) fn = Except.ok
      { cavity_id := extract_cavity_number_from_filename fn,
        header_info := extract_header_data p0.text,
        measurements := sortMeas (dedupMeas ((rest.map extract_table_data_from_page).flatten)) } :=
  rfl

/-! ## Claim theorems -/

/-- C1, counterexample: on the single-page document carrying the scenario row, the
pipeline yields zero measurement records, not one — measurements are only taken
from page index 1 onward. -/
theorem c1_single_page_scenario_yields_nothing :
    (process_pdf_data [c1Page] "report.pdf").toOption.map
      (fun r => r.measurements.length) = some 0 := by
  decide

/-- C1, amended: with the scenario row on a measurement page (index 1), extraction
yields two records — the row is split at its second row-number-like token `10` by
the plain-text fallback (the coordinate path filters the row down to 3 relevant
tokens and yields nothing) — and neither record equals the claimed single record. -/
theorem c1_row_on_measurement_page_yields_two_records :
    (process_pdf_data [c1HeaderPage, c1Page] "report.pdf").toOption.map
      DocResult.measurements = some
      [{ no := "1", sym := "", dimension := "", upper := "", lower := "", pos := "Ø",
         measured_by_vendor := "", measured_by_denso := "", assessment := "" },
       { no := "10", sym := "", dimension := "", upper := "+0.012", lower := "-0.5",
         pos := "Bottom", measured_by_vendor := "9.89", measured_by_denso := "",
         assessment := "" }] := by
  decide

/-- C6: a line of exactly 13 measurement-relevant tokens is classified into the two
slices `take 6` and `drop 6` (floor of half), and its records are the independent
field assignments of those two slices. -/
theorem c6_thirteen_token_line_split (tl : List String) (h : tl.length = 13) :
    classifyLine tl = [tl.take 6, tl.drop 6] ∧
    lineRecords tl = assignEntry (tl.take 6) ++ assignEntry (tl.drop 6) := by
  have hc : classifyLine tl = [tl.take 6, tl.drop 6] := by
    unfold classifyLine
    rw [h]
    norm_num
  refine ⟨hc, ?_⟩
  unfold lineRecords
  rw [hc]
  simp

/-- C6, witness: the split of a concrete 13-token line. -/
theorem c6_witness :
    c6Tokens.length = 13 ∧ classifyLine c6Tokens = [c6Tokens.take 6, c6Tokens.drop 6] :=
  ⟨by decide, (c6_thirteen_token_line_split c6Tokens (by decide)).1⟩

/-- C8, counterexample: a six-token slice (at least 2 tokens) for which the
coordinate-path field assigner emits no record, because after consuming `no` and
the symbol token only four tokens remain. -/
theorem c8_coord_assigner_declines_six_token_slice :
    2 ≤ (["1", "A", "10", "0.1", "0.2", "9.89"] : List String).length ∧
    assignEntry ["1", "A", "10", "0.1", "0.2", "9.89"] = [] := by
  decide

/-- C8, amended: the plain-text field assigner (`parse_single_measurement`) declines
exactly the slices of fewer than 2 tokens and otherwise emits one record with
empty-string defaults; the coordinate-path assigner (`assignEntry`) additionally
requires at least 5 tokens to remain after consuming `no` and the optional `sym`. -/
theorem c8_assigner_acceptance :
    (∀ row : List String, (parse_single_measurement row).isSome = decide (2 ≤ row.length)) ∧
    (∀ entry : List String,
        (assignEntry entry).length =
          if 2 ≤ entry.length ∧ 5 ≤ ((symSplit entry.tail).2).length then 1 else 0) ∧
    parse_single_measurement ["5", "BURR"] =
      some { no := "5", sym := "BURR", dimension := "", upper := "", lower := "", pos := "",
             measured_by_vendor := "", measured_by_denso := "", assessment := "" } := by
  refine ⟨?_, ?_, by decide⟩
  · intro row
    match row with
    | [] => rfl
    | [a] => rfl
    | a :: b :: t =>
      have h2 : 2 ≤ (a :: b :: t).length := by simp
      simp [parse_single_measurement, h2]
  · intro entry
    match entry with
    | [] => rfl
    | [a] => rfl
    | a :: b :: t =>
      have h2 : 2 ≤ (a :: b :: t).length := by simp
      simp only [assignEntry, List.tail_cons]
      by_cases h5 : 5 ≤ ((symSplit (b :: t)).2).length
      · rw [if_pos h5, if_pos ⟨h2, h5⟩]
        rfl
      · rw [if_neg h5, if_neg (fun hc => h5 hc.2)]
        rfl

/-- C10: the first page never contributes measurement records — a single-page
document yields an empty measurement list whatever the page holds, and replacing
the first page of any document leaves the measurement list unchanged. -/
theorem c10_first_page_never_contributes :
    (∀ (p : Page) (fn : String) (dr : DocResult),
        process_pdf_data [p] fn = Except.ok dr → dr.measurements = []) ∧
    (∀ (p q : Page) (rest : List Page) (fn : String) (d d' : DocResult),
        process_pdf_data (p :: rest) fn = Except.ok d →
        process_pdf_data (q :: rest) fn = Except.ok d' →
        d.measurements = d'.measurements) := by
  constructor
  · intro p fn dr h
    rw [process_pdf_data_cons] at h
    injection h with h'
    rw [← h']
    rfl
  · intro p q rest fn d d' h h'
    rw [process_pdf_data_cons] at h h'
    injection h with h1
    injection h' with h2
    rw [← h1, ← h2]

/-- C10, witness: a single-page document whose page would parse as a data row if it
were scanned still yields no measurements. -/
theorem c10_witness :
    process_pdf_data [c10Page] "f.pdf" = Except.ok c10Expected ∧
    c10Expected.measurements = [] :=
  have h : process_pdf_data [c10Page] "f.pdf" = Except.ok c10Expected := by decide
  ⟨h, c10_first_page_never_contributes.1 c10Page "f.pdf" c10Expected h⟩

theorem dedupGo_not_seen : ∀ (seen : List (String × String × String)) (l : List Meas),
    ∀ m ∈ dedupGo seen l, dedupKey m ∉ seen := by
  intro seen l
  induction l generalizing seen with
  | nil => intro m hm; simp [dedupGo] at hm
  | cons x t ih =>
    intro m hm
    simp only [dedupGo] at hm
    split at hm
    next hx => exact ih seen m hm
    next hx =>
      rcases List.mem_cons.mp hm with rfl | hm'
      · exact hx
      · intro hc
        exact ih (dedupKey x :: seen) m hm' (List.mem_cons_of_mem _ hc)

theorem dedupGo_pairwise : ∀ (seen : List (String × String × String)) (l : List Meas),
    (dedupGo seen l).Pairwise (fun a b => dedupKey a ≠ dedupKey b) := by
  intro seen l
  induction l generalizing seen with
  | nil => simp [dedupGo]
  | cons x t ih =>
    simp only [dedupGo]
    split
    next hx => exact ih seen
    next hx =>
      refine List.Pairwise.cons ?_ (ih _)
      intro b hb hkey
      exact dedupGo_not_seen _ _ b hb (by rw [← hkey]; exact List.mem_cons_self _ _)

theorem dedupGo_sublist : ∀ (seen : List (String × String × String)) (l : List Meas),
    (dedupGo seen l).Sublist l := by
  intro seen l
  induction l generalizing seen with
  | nil => simp [dedupGo]
  | cons x t ih =>
    simp only [dedupGo]
    split
    · exact (ih seen).cons x
    · exact (ih _).cons₂ x

theorem dedupGo_find : ∀ (seen : List (String × String × String)) (l : List Meas),
    ∀ m ∈ dedupGo seen l,
      l.find? (fun y => decide (dedupKey y = dedupKey m)) = some m := by
  intro seen l
  induction l generalizing seen with
  | nil => intro m hm; simp [dedupGo] at hm
  | cons x t ih =>
    intro m hm
    simp only [dedupGo] at hm
    split at hm
    next hx =>
      have hmem := dedupGo_not_seen seen t m hm
      have hne : ¬ (decide (dedupKey x = dedupKey m) = true) := by
        simp only [decide_eq_true_eq]
        intro he
        exact hmem (he ▸ hx)
      have hstep : List.find? (fun y => decide (dedupKey y = dedupKey m)) (x :: t) =
          List.find? (fun y => decide (dedupKey y = dedupKey m)) t :=
        List.find?_cons_of_neg t hne
      rw [hstep]
      exact ih seen m hm
    next hx =>
      rcases List.mem_cons.mp hm with rfl | hm'
      · exact List.find?_cons_of_pos t (by simp)
      · have hmem := dedupGo_not_seen _ _ m hm'
        have hne : ¬ (decide (dedupKey x = dedupKey m) = true) := by
          simp only [decide_eq_true_eq]
          intro he
          exact hmem (by rw [← he]; exact List.mem_cons_self _ _)
        have hstep : List.find? (fun y => decide (dedupKey y = dedupKey m)) (x :: t) =
            List.find? (fun y => decide (dedupKey y = dedupKey m)) t :=
          List.find?_cons_of_neg t hne
        rw [hstep]
        exact ih _ m hm'

theorem dedupGo_covers : ∀ (seen : List (String × String × String)) (l : List Meas),
    ∀ m ∈ l, dedupKey m ∉ seen →
      ∃ m', m' ∈ dedupGo seen l ∧ dedupKey m' = dedupKey m := by
  intro seen l
  induction l generalizing seen with
  | nil => intro m hm; exact absurd hm (List.not_mem_nil m)
  | cons x t ih =>
    intro m hm hns
    simp only [dedupGo]
    rcases List.mem_cons.mp hm with rfl | hm'
    · split
      next hx => exact absurd hx hns
      next hx => exact ⟨m, List.mem_cons_self _ _, rfl⟩
    · split
      next hx => exact ih seen m hm' hns
      next hx =>
        by_cases hk : dedupKey m = dedupKey x
        · exact ⟨x, List.mem_cons_self _ _, hk.symm⟩
        · obtain ⟨m', hm'', hk'⟩ := ih (dedupKey x :: seen) m hm' (by
            intro hc
            rcases List.mem_cons.mp hc with he | hc'
            · exact hk he
            · exact hns hc')
          exact ⟨m', List.mem_cons_of_mem _ hm'', hk'⟩

/-- C2: the final measurement list of every document is sorted ascending by the key
`int(no) if no.isdigit() else 0`, and any record whose `no` is not a clean digit
string sits in front of every record with a positive ordinal; no input raises. -/
theorem c2_output_sorted_by_row_number (pages : List Page) (fn : String) (dr : DocResult)
    (h : process_pdf_data pages fn = Except.ok dr) :
    dr.measurements.Sorted measLE ∧
    (∀ pre a post, dr.measurements = pre ++ a :: post → pyIsDigitStr a.no = false →
      ∀ b ∈ pre, sortKey b = 0) := by
  have hsorted : dr.measurements.Sorted measLE := by
    cases pages with
    | nil => exact absurd h (by simp [process_pdf_data])
    | cons p0 rest =>
      rw [process_pdf_data_cons] at h
      injection h with h'
      rw [← h']
      exact List.sorted_insertionSort measLE _
  refine ⟨hsorted, ?_⟩
  intro pre a post heq hnd b hb
  have hpair : (pre ++ a :: post).Pairwise measLE := heq ▸ hsorted
  have hle : measLE b a := (List.pairwise_append.mp hpair).2.2 b hb a (List.mem_cons_self a post)
  have ha : sortKey a = 0 := by simp [sortKey, hnd]
  have hle' : sortKey b ≤ sortKey a := hle
  omega

/-- C2, witness: a document whose rows arrive out of order is emitted sorted. -/
theorem c2_witness :
    process_pdf_data c2Doc "f.pdf" = Except.ok c2Expected ∧
    c2Expected.measurements.Sorted measLE :=
  have h : process_pdf_data c2Doc "f.pdf" = Except.ok c2Expected := by decide
  ⟨h, (c2_output_sorted_by_row_number c2Doc "f.pdf" c2Expected h).1⟩

/-- C3, counterexample: a document whose final output holds two distinct records
that agree on `(no, dimension)` — the deduplication key also includes
`measured_by_vendor`, so they both survive. -/
theorem c3_no_dimension_pair_not_unique :
    (process_pdf_data c3Doc "f.pdf").toOption.map DocResult.measurements =
      some [c3RecA, c3RecB] ∧
    c3RecA.no = c3RecB.no ∧ c3RecA.dimension = c3RecB.dimension ∧
    c3RecA.measured_by_vendor = "9.89" ∧ c3RecB.measured_by_vendor = "9.99" := by
  decide

/-- C3, amended: for every document, the triples `(no, dimension,
measured_by_vendor)` of the records in the final output are pairwise distinct. -/
theorem c3_dedup_key_triples_distinct (pages : List Page) (fn : String) (dr : DocResult)
    (h : process_pdf_data pages fn = Except.ok dr) :
    dr.measurements.Pairwise (fun a b => dedupKey a ≠ dedupKey b) := by
  cases pages with
  | nil => exact absurd h (by simp [process_pdf_data])
  | cons p0 rest =>
    rw [process_pdf_data_cons] at h
    injection h with h'
    rw [← h']
    show (sortMeas _).Pairwise _
    have hperm := List.perm_insertionSort measLE
      (dedupMeas ((rest.map extract_table_data_from_page).flatten))
    have hsymm : ∀ {a b : Meas}, dedupKey a ≠ dedupKey b → dedupKey b ≠ dedupKey a :=
      fun hab he => hab he.symm
    exact (hperm.pairwise_iff hsymm).mpr (dedupGo_pairwise [] _)

/-- C3, witness: the amended distinctness on the concrete two-record document. -/
theorem c3_witness :
    process_pdf_data c3Doc "f.pdf" = Except.ok c3Expected ∧
    c3Expected.measurements.Pairwise (fun a b => dedupKey a ≠ dedupKey b) :=
  have h : process_pdf_data c3Doc "f.pdf" = Except.ok c3Expected := by decide
  ⟨h, c3_dedup_key_triples_distinct c3Doc "f.pdf" c3Expected h⟩

/-- C4: deduplication keeps, unchanged, exactly the first-seen record of each key
(the output is a sublist of the input, every kept record is the first of its key
in accumulation order, and every input key stays represented); later duplicates
are dropped whole, never merged. -/
theorem c4_first_seen_wins (l : List Meas) :
    (dedupMeas l).Sublist l ∧
    (∀ m ∈ dedupMeas l, l.find? (fun y => decide (dedupKey y = dedupKey m)) = some m) ∧
    (∀ m ∈ l, ∃ m', m' ∈ dedupMeas l ∧ dedupKey m' = dedupKey m) :=
  ⟨dedupGo_sublist [] l, fun m hm => dedupGo_find [] l m hm,
   fun m hm => dedupGo_covers [] l m hm (List.not_mem_nil (dedupKey m))⟩

/-- C4, witness: on a list with a later duplicate, the first-seen record is the one
found and the duplicate's key is still represented. -/
theorem c4_witness :
    (dedupMeas c4List).Sublist c4List ∧
    c4List.find? (fun y => decide (dedupKey y = dedupKey c4First)) = some c4First ∧
    (∃ m', m' ∈ dedupMeas c4List ∧ dedupKey m' = dedupKey c4Dup) :=
  have h := c4_first_seen_wins c4List
  ⟨h.1, h.2.1 c4First (by decide), h.2.2 c4Dup (by decide)⟩

theorem head?_take_of_pos {α : Type} (l : List α) (n : Nat) (h : 0 < n) :
    (l.take n).head? = l.head? := by
  cases l with
  | nil => simp
  | cons a t =>
    cases n with
    | zero => omega
    | succ k => simp [List.take_succ_cons]

theorem rowPositions_mem (texts : List String) :
    ∀ p ∈ rowPositions texts, p < texts.length ∧ isRowNo (texts.getD p "") = true := by
  intro p hp
  have h := List.mem_filter.mp hp
  exact ⟨List.mem_range.mp h.1, h.2⟩

theorem rowPositions_pairwise (texts : List String) :
    (rowPositions texts).Pairwise (· < ·) := by
  unfold rowPositions
  exact List.Pairwise.filter _ (List.pairwise_lt_range texts.length)

theorem rowSlices_head (texts : List String) :
    ∀ ps : List Nat, ps.Pairwise (· < ·) → (∀ p ∈ ps, p < texts.length) →
      ∀ s ∈ rowSlices texts ps, ∃ p ∈ ps, s.head? = some (texts.getD p "") := by
  intro ps
  induction ps with
  | nil => intro _ _ s hs; simp [rowSlices] at hs
  | cons p rest ih =>
    intro hpw hbound s hs
    cases rest with
    | nil =>
      simp only [rowSlices, List.mem_singleton] at hs
      subst hs
      refine ⟨p, List.mem_cons_self _ _, ?_⟩
      rw [List.head?_drop, List.getElem?_eq_getElem (hbound p (List.mem_cons_self _ _)),
          List.getD_eq_getElem?_getD,
          List.getElem?_eq_getElem (hbound p (List.mem_cons_self _ _))]
      rfl
    | cons q rest2 =>
      simp only [rowSlices] at hs
      rcases List.mem_cons.mp hs with rfl | hs'
      · have hpq : p < q := (List.pairwise_cons.mp hpw).1 q (List.mem_cons_self _ _)
        refine ⟨p, List.mem_cons_self _ _, ?_⟩
        rw [head?_take_of_pos _ _ (by omega), List.head?_drop,
            List.getElem?_eq_getElem (hbound p (List.mem_cons_self _ _)),
            List.getD_eq_getElem?_getD,
            List.getElem?_eq_getElem (hbound p (List.mem_cons_self _ _))]
        rfl
      · obtain ⟨pp, hpp, hh⟩ := ih (List.pairwise_cons.mp hpw).2
          (fun r hr => hbound r (List.mem_cons_of_mem _ hr)) s hs'
        exact ⟨pp, List.mem_cons_of_mem _ hpp, hh⟩

theorem psm_no (row : List String) (m : Meas)
    (h : parse_single_measurement row = some m) : m.no = row.headD "" := by
  match row with
  | [] => simp [parse_single_measurement] at h
  | [a] => simp [parse_single_measurement] at h
  | a :: b :: t =>
    simp only [parse_single_measurement] at h
    injection h with h'
    rw [← h']
    rfl

/-- C7, counterexample: the coordinate path validates nothing about the leading
token, so a row starting with `AB` produces a record whose non-digit `no` reaches
the final output list. -/
theorem c7_nonnumeric_no_reaches_output :
    (process_pdf_data c7Doc "f.pdf").toOption.map DocResult.measurements = some [c7BadRec] ∧
    c7BadRec.no = "AB" ∧ c7BadRec.no.data.all Char.isDigit = false := by
  decide

/-- C7, amended: the plain-text fallback parser emits only records whose `no` is a
non-empty string of at most three digits with integer value between 1 and 200; the
coordinate-based extractor performs no such check (see the counterexample). -/
theorem c7_fallback_no_is_bounded_digits (texts : List String) (m : Meas)
    (hm : m ∈ parse_measurement_row texts) :
    m.no.data.isEmpty = false ∧ m.no.data.all Char.isDigit = true ∧
    m.no.data.length ≤ 3 ∧ 1 ≤ natFromDigits m.no.data ∧ natFromDigits m.no.data ≤ 200 := by
  obtain ⟨s, hs, hpsm⟩ := List.mem_filterMap.mp hm
  obtain ⟨p, hp, hhead⟩ := rowSlices_head texts (rowPositions texts)
    (rowPositions_pairwise texts) (fun q hq => (rowPositions_mem texts q hq).1) s hs
  have hrow : isRowNo (texts.getD p "") = true := (rowPositions_mem texts p hp).2
  have hno : m.no = texts.getD p "" := by
    rw [psm_no s m hpsm, List.headD_eq_head?, hhead]
    rfl
  rw [hno]
  unfold isRowNo at hrow
  simp only [Bool.and_eq_true, decide_eq_true_eq, Bool.not_eq_true'] at hrow
  obtain ⟨⟨⟨⟨h1, h2⟩, h3⟩, h4⟩, h5⟩ := hrow
  exact ⟨h1, h3, h2, h4, h5⟩

/-- C7, witness: a concrete fallback-parsed record with a valid `no`. -/
theorem c7_witness :
    c7GoodRec ∈ parse_measurement_row c7Texts ∧
    (c7GoodRec.no.data.isEmpty = false ∧ c7GoodRec.no.data.all Char.isDigit = true ∧
     c7GoodRec.no.data.length ≤ 3 ∧ 1 ≤ natFromDigits c7GoodRec.no.data ∧
     natFromDigits c7GoodRec.no.data ≤ 200) :=
  have h : c7GoodRec ∈ parse_measurement_row c7Texts := by decide
  ⟨h, c7_fallback_no_is_bounded_digits c7Texts c7GoodRec h⟩

theorem cavHere_some_facts (l : List Char) (ds : List Char) (h : cavHere l = some ds) :
    ds.isEmpty = false ∧ ds.all Char.isDigit = true ∧ HasCavCI l := by
  match l with
  | [] => simp [cavHere] at h
  | [_] => simp [cavHere] at h
  | [_, _] => simp [cavHere] at h
  | [_, _, _] => simp [cavHere] at h
  | [_, _, _, _] => simp [cavHere] at h
  | c :: a :: v :: hh :: d :: rest =>
    simp only [cavHere] at h
    split at h
    next hcond =>
      injection h with h'
      subst h'
      simp only [Bool.and_eq_true, beq_iff_eq] at hcond
      obtain ⟨⟨⟨⟨hc, ha⟩, hv⟩, hdash⟩, hd⟩ := hcond
      subst hdash
      refine ⟨rfl, ?_, HasCavCI.head c a v d rest hc ha hv hd⟩
      have htw : (rest.takeWhile Char.isDigit).all Char.isDigit = true :=
        List.all_eq_true.mpr (fun x hx => List.mem_takeWhile_imp hx)
      simp [hd, htw]
    next hcond => exact absurd h (by simp)

theorem searchCav_some_facts (l : List Char) (ds : List Char) (h : searchCav l = some ds) :
    ds.isEmpty = false ∧ ds.all Char.isDigit = true := by
  induction l with
  | nil => simp [searchCav] at h
  | cons c cs ih =>
    cases hch : cavHere (c :: cs) with
    | some ds2 =>
      simp only [searchCav, hch] at h
      injection h with h'
      subst h'
      exact ⟨(cavHere_some_facts _ _ hch).1, (cavHere_some_facts _ _ hch).2.1⟩
    | none =>
      simp only [searchCav, hch] at h
      exact ih h

theorem searchCav_isSome_iff (l : List Char) : (searchCav l).isSome = true ↔ HasCavCI l := by
  induction l with
  | nil =>
    constructor
    · intro h; simp [searchCav] at h
    · intro h; cases h
  | cons c cs ih =>
    constructor
    · intro h
      cases hch : cavHere (c :: cs) with
      | some ds => exact (cavHere_some_facts _ _ hch).2.2
      | none =>
        simp only [searchCav, hch] at h
        exact HasCavCI.tail c cs (ih.mp h)
    · intro h
      cases hch : cavHere (c :: cs) with
      | some ds => simp [searchCav, hch]
      | none =>
        simp only [searchCav, hch]
        cases h with
        | head c2 a2 v2 d2 rest hc ha hv hd =>
          have hsome : cavHere (c :: a2 :: v2 :: '-' :: d2 :: rest) =
              some (d2 :: rest.takeWhile Char.isDigit) := by
            simp [cavHere, hc, ha, hv, hd]
          rw [hsome] at hch
          exact absurd hch (by simp)
        | tail c2 l2 h2 => exact ih.mpr h2

/-- C5: when the filename contains a case-insensitive `CAV-<digits>` occurrence the
derived cavity id is `CAV-` followed by the (non-empty, digit-only) matched run;
otherwise it is the basename of the filename without its extension. The spec's two
examples are checked. -/
theorem c5_cavity_id_derivation :
    (∀ fn : String, HasCavCI fn.data →
        ∃ ds : List Char, ds.isEmpty = false ∧ ds.all Char.isDigit = true ∧
          extract_cavity_number_from_filename fn = "CAV-" ++ String.mk ds) ∧
    (∀ fn : String, ¬ HasCavCI fn.data →
        extract_cavity_number_from_filename fn = String.mk (dropExt (afterLast '/' fn.data))) ∧
    extract_cavity_number_from_filename "Report_CAV-7_final.pdf" = "CAV-7" ∧
    extract_cavity_number_from_filename "inspection_report.pdf" = "inspection_report" := by
  refine ⟨?_, ?_, by decide, by decide⟩
  · intro fn h
    have hsome : (searchCav fn.data).isSome = true := (searchCav_isSome_iff fn.data).mpr h
    cases hch : searchCav fn.data with
    | none => rw [hch] at hsome; simp at hsome
    | some ds =>
      obtain ⟨h1, h2⟩ := searchCav_some_facts _ _ hch
      refine ⟨ds, h1, h2, ?_⟩
      unfold extract_cavity_number_from_filename
      rw [hch]
  · intro fn h
    cases hch : searchCav fn.data with
    | some ds =>
      exfalso
      exact h ((searchCav_isSome_iff fn.data).mp (by simp [hch]))
    | none =>
      unfold extract_cavity_number_from_filename
      rw [hch]

/-- C5, witness: a lowercase occurrence is found and normalised. -/
theorem c5_witness :
    HasCavCI ("x_cav-42.pdf" : String).data ∧
    (∃ ds : List Char, ds.isEmpty = false ∧ ds.all Char.isDigit = true ∧
      extract_cavity_number_from_filename "x_cav-42.pdf" = "CAV-" ++ String.mk ds) :=
  have h : HasCavCI ("x_cav-42.pdf" : String).data :=
    HasCavCI.tail 'x' _ (HasCavCI.tail '_' _
      (HasCavCI.head 'c' 'a' 'v' '4' ['2', '.', 'p', 'd', 'f'] rfl rfl rfl rfl))
  ⟨h, c5_cavity_id_derivation.1 "x_cav-42.pdf" h⟩

theorem perFile_error_shape (sf : String → String) (f : UploadedFile) (e : String)
    (h : perFile sf f = Except.error e) : ∃ rest, e = sf f.filename ++ rest := by
  simp only [perFile] at h
  split_ifs at h with h1 h2
  · injection h with h'
    exact ⟨": Invalid file type", h'.symm⟩
  · injection h with h'
    exact ⟨": File too large (>10MB)", h'.symm⟩
  · cases hc : f.content with
    | none =>
      simp only [hc] at h
      injection h with h'
      exact ⟨": Error opening PDF: cannot open broken document", h'.symm⟩
    | some pages =>
      simp only [hc] at h
      cases hp : process_pdf_data pages (sf f.filename) with
      | error e2 =>
        simp only [hp] at h
        injection h with h'
        exact ⟨": " ++ e2, h'.symm⟩
      | ok dr =>
        simp only [hp] at h
        exact absurd h (by simp)

theorem batch_fold_spec (sf : String → String) :
    ∀ (files : List UploadedFile) (st : BatchState),
      (files.foldl (batchStep sf) st).successes = st.successes + successCount sf files ∧
      (files.foldl (batchStep sf) st).errors = st.errors ++ perFileErrors sf files := by
  intro files
  induction files with
  | nil =>
    intro st
    simp [successCount, perFileErrors]
  | cons f fs ih =>
    intro st
    simp only [List.foldl_cons]
    by_cases hf : f.filename == ""
    · have hstep : batchStep sf st f = st := by simp [batchStep, hf]
      rw [hstep]
      have hfilter : (f :: fs).filter (fun g => !(g.filename == "")) =
          fs.filter (fun g => !(g.filename == "")) := by
        simp [List.filter_cons, hf]
      constructor
      · rw [(ih st).1]
        unfold successCount
        rw [hfilter]
      · rw [(ih st).2]
        unfold perFileErrors
        rw [hfilter]
    · cases hres : perFile sf f with
      | error e =>
        have hstep : batchStep sf st f = { st with errors := st.errors ++ [e] } := by
          simp [batchStep, hf, hres]
        rw [hstep]
        have hfilter : (f :: fs).filter (fun g => !(g.filename == "")) =
            f :: fs.filter (fun g => !(g.filename == "")) := by
          simp [List.filter_cons, hf]
        constructor
        · rw [(ih _).1]
          unfold successCount
          rw [hfilter, List.countP_cons]
          simp [hres, Except.isOk, Except.toBool]
        · rw [(ih _).2]
          unfold perFileErrors
          rw [hfilter, List.filterMap_cons]
          simp [hres, List.append_assoc]
      | ok pr =>
        obtain ⟨cid, entry⟩ := pr
        have hstep : batchStep sf st f =
            { st with data := dictInsert st.data cid entry,
                      successes := st.successes + 1 } := by
          simp [batchStep, hf, hres]
        rw [hstep]
        have hfilter : (f :: fs).filter (fun g => !(g.filename == "")) =
            f :: fs.filter (fun g => !(g.filename == "")) := by
          simp [List.filter_cons, hf]
        constructor
        · rw [(ih _).1]
          unfold successCount
          rw [hfilter, List.countP_cons]
          simp only [hres, Except.isOk, Except.toBool, if_pos]
          omega
        · rw [(ih _).2]
          unfold perFileErrors
          rw [hfilter, List.filterMap_cons]
          simp [hres]

/-- C9: the batch endpoint returns an error response exactly when no file
processes successfully; otherwise it reports `success`, counts only the
successes in `files_processed`, and carries every per-file error as a warning
prefixed with that file's (sanitised) name. -/
theorem c9_batch_failure_policy (sf : String → String) (files : List UploadedFile) :
    ((∃ msg es, process_pdf sf files = BatchResponse.err msg es) ↔
      successCount sf files = 0) ∧
    (∀ r, process_pdf sf files = BatchResponse.ok r →
        r.success = true ∧ r.files_processed = successCount sf files ∧
        r.warnings = perFileErrors sf files ∧
        (∀ w ∈ r.warnings, ∃ f, f ∈ files ∧ (f.filename == "") = false ∧
          ∃ rest, w = sf f.filename ++ rest)) := by
  have hfold := batch_fold_spec sf files ⟨[], 0, []⟩
  have hsucc : (files.foldl (batchStep sf) ⟨[], 0, []⟩).successes = successCount sf files := by
    rw [hfold.1]
    exact Nat.zero_add _
  have herr : (files.foldl (batchStep sf) ⟨[], 0, []⟩).errors = perFileErrors sf files := by
    rw [hfold.2]
    rfl
  have hname : ∀ w ∈ perFileErrors sf files, ∃ f, f ∈ files ∧ (f.filename == "") = false ∧
      ∃ rest, w = sf f.filename ++ rest := by
    intro w hw
    unfold perFileErrors at hw
    obtain ⟨f, hf, hmap⟩ := List.mem_filterMap.mp hw
    obtain ⟨hfmem, hfname⟩ := List.mem_filter.mp hf
    cases hres : perFile sf f with
    | error e =>
      simp only [hres] at hmap
      injection hmap with hmap'
      obtain ⟨rest, hrest⟩ := perFile_error_shape sf f e hres
      exact ⟨f, hfmem, by simpa using hfname, rest, by rw [← hmap', hrest]⟩
    | ok pr =>
      simp [hres] at hmap
  have hcase0 : (files.isEmpty || files.all (fun g => g.filename == "")) = true →
      successCount sf files = 0 := by
    intro h0
    simp only [Bool.or_eq_true] at h0
    rcases h0 with he | ha
    · have hnil : files = [] := by
        cases files with
        | nil => rfl
        | cons a t => simp at he
      subst hnil
      rfl
    · unfold successCount
      have hnil : files.filter (fun g => !(g.filename == "")) = [] := by
        rw [List.filter_eq_nil_iff]
        intro a ha2
        simp [List.all_eq_true.mp ha a ha2]
      rw [hnil]
      rfl
  constructor
  · constructor
    · rintro ⟨msg, es, hresp⟩
      simp only [process_pdf] at hresp
      split at hresp
      next h0 => exact hcase0 h0
      next h0 =>
        split at hresp
        next hz =>
          have hz2 : (files.foldl (batchStep sf) ⟨[], 0, []⟩).successes = 0 := by
            simpa using hz
          rw [← hsucc]
          exact hz2
        next hz => exact BatchResponse.noConfusion hresp
    · intro hzero
      simp only [process_pdf]
      split
      next => exact ⟨"No files selected", [], rfl⟩
      next h0 =>
        have hz : ((files.foldl (batchStep sf) ⟨[], 0, []⟩).successes == 0) = true := by
          simp [hsucc, hzero]
        rw [if_pos hz]
        exact ⟨"No files were successfully processed", _, rfl⟩
  · intro r hr
    simp only [process_pdf] at hr
    split at hr
    next h0 => exact BatchResponse.noConfusion hr
    next h0 =>
      split at hr
      next hz => exact BatchResponse.noConfusion hr
      next hz =>
        injection hr with hr'
        subst hr'
        refine ⟨rfl, hsucc, herr, ?_⟩
        intro w hw
        exact hname w (herr ▸ hw)

/-- C9, witness: of three uploads whose second file is not a PDF, two process;
the response is a success naming the failed file in its warnings. -/
theorem c9_witness :
    process_pdf id c9Files = BatchResponse.ok c9Payload ∧
    c9Payload.success = true ∧
    c9Payload.files_processed = successCount id c9Files ∧
    successCount id c9Files = 2 ∧
    c9Payload.warnings = ["b.txt: Invalid file type"] :=
  have h : process_pdf id c9Files = BatchResponse.ok c9Payload := by decide
  have h2 := (c9_batch_failure_policy id c9Files).2 c9Payload h
  ⟨h, h2.1, h2.2.1, by decide, by decide⟩

end IsirApi
